import Mathlib

/-!
Verification development for the FVGridMaker error-handling core.

The definitions below are a shallow embedding of the C++ sources:

* `Severity`, `Language`, `Policy`, `ErrorRecord`, `ErrorConfig` mirror the
  enums and aggregates of `Severity.h`, `Language.h`, `ErrorConfig.h`,
  `ErrorRecord.h` (the `timestamp`/`thread id` fields of `ErrorRecord` are
  metadata irrelevant to the verified properties and are omitted).
* `make_code` / `code` mirror `ErrorTraits.h`; machine integers are modelled
  as `Nat` with explicit `% 65536` where the C++ parameter type is
  `std::uint16_t`.
* `ErrorTraits` is a structure standing for a specialization of the C++
  `ErrorTraits<E>` template; `CoreErrTraits` is the `CoreErr` specialization
  of `CoreErrors.h`, with the enum modelled by its underlying 16-bit value.
* `replaceAllFuel`/`replaceAll`/`render` and `log_error` mirror
  `detail::log_error` of `Detail.h`; the C++ `while (find …) replace …`
  loop is embedded with a structural fuel argument equal to the length of
  the scanned string (each loop step consumes at least one character, so
  that fuel is always sufficient).
* `ThreadLocalBufferLogger.log` / `.flush` and the `ErrorManager` facade
  mirror `ErrorManager.h`; the per-thread buffer is passed explicitly as a
  `List ErrorRecord` and `flush` returns `(drained records, new buffer)`.
* `fvgError` embeds the `FVG_ERROR` macro of `Macros.h`; an exception that
  unwinds is modelled by the first component of the result
  (`some record` = an `FVGException` carrying `record` is thrown).
* `Status`/`StatusOr` mirror `Status.h`; the C++ `value()` accessor, which
  throws `std::bad_optional_access` when no value is present, is modelled
  as an `Option`-returning accessor (`none` = the "no value" failure).
* `ConfigStore` with `Config.get`/`Config.set`/`Config.read` embeds the
  snapshot singleton of `ErrorConfig.h`: configurations live in an
  append-only heap of immutable objects and snapshots are heap addresses,
  reflecting that `Config::set` builds a fresh `shared_ptr<const ErrorConfig>`
  and only swaps the current pointer, never writing through old pointers.

Specification-side definitions used to characterise the substitution
algorithm (`splitTokFuel`, `splitTok`, `joinSeg`, `containsTok`) are written
from the specification's words, not from the code, and are only compared
against the embedded code.
-/

namespace FVG

/-- Severity levels, `Severity.h`: Trace(0) < Debug(1) < Info(2) < Warning(3)
< Error(4) < Fatal(5). -/
inductive Severity where
  | Trace
  | Debug
  | Info
  | Warning
  | Error
  | Fatal
deriving DecidableEq

/-- Underlying integer value of a severity; C++ compares severities by this
value. -/
def Severity.toNat : Severity → Nat
  | .Trace => 0
  | .Debug => 1
  | .Info => 2
  | .Warning => 3
  | .Error => 4
  | .Fatal => 5

/-- Message languages, `Language.h`. -/
inductive Language where
  | EnUS
  | PtBR
deriving DecidableEq

/-- Error-reaction policy, `ErrorConfig.h`. -/
inductive Policy where
  | Throw
  | Status
deriving DecidableEq

/-- An error record, `ErrorRecord.h` (timestamp and thread id omitted). -/
structure ErrorRecord where
  code : Nat
  severity : Severity
  message : String
deriving DecidableEq

/-- Runtime configuration, `ErrorConfig.h`.  The `shared_ptr<IErrorLogger>`
field is represented by an opaque identifier; all claims below run against
the default `ThreadLocalBufferLogger`. -/
structure ErrorConfig where
  language : Language
  policy : Policy
  min_severity : Severity
  thread_buffer_cap : Nat
  logger_id : Nat
deriving DecidableEq

/-- `make_code` of `ErrorTraits.h`:
`(uint32(domain) << 16) | uint32(value)` on `uint16` arguments; the
`% 65536` models the `std::uint16_t` parameter types. -/
def make_code (domain value : Nat) : Nat :=
  Nat.lor (Nat.shiftLeft (domain % 65536) 16) (value % 65536)

/-- A specialization of the C++ `ErrorTraits<E>` template: the static
members it must provide.  `val e` is the numeric (underlying `uint16`)
value of the enumerator `e`. -/
structure ErrorTraits (E : Type) where
  domain_id : Nat
  domain_name : String
  default_severity : E → Severity
  key : E → String
  enUS : E → String
  ptBR : E → String
  val : E → Nat

/-- `code` of `ErrorTraits.h`:
`make_code(ErrorTraits<E>::domain_id(), static_cast<uint16_t>(err_enum))`. -/
def code {E : Type} (tr : ErrorTraits E) (e : E) : Nat :=
  make_code tr.domain_id (tr.val e)

/-- Auxiliary metadata aggregate of `CoreErrors.h` (`detail::CoreErrorInfo`). -/
structure CoreErrorInfo where
  key : String
  severity : Severity
  enUS : String
  ptBR : String
deriving DecidableEq

/-- `detail::get_core_error_info_data` of `CoreErrors.h`.  `CoreErr` is
modelled by its underlying `uint16` value (InvalidArgument = 1, OutOfRange
= 2, NotImplemented = 3, AssertFailed = 4, InconsistentGeometry = 5); the
C++ `switch` falls to the `default` branch on any other value. -/
def get_core_error_info_data (e : Nat) : CoreErrorInfo :=
  match e with
  | 1 => ⟨"CORE_INVALID_ARGUMENT", Severity.Error,
          "Invalid argument: {name}.", "Argumento inválido: {name}."⟩
  | 2 => ⟨"CORE_OUT_OF_RANGE", Severity.Error,
          "Index out of range: {index}.", "Índice fora do intervalo: {index}."⟩
  | 3 => ⟨"CORE_NOT_IMPLEMENTED", Severity.Warning,
          "Feature not implemented.", "Recurso não implementado."⟩
  | 4 => ⟨"CORE_ASSERT_FAILED", Severity.Fatal,
          "Assertion failed.", "Falha de asserção."⟩
  | 5 => ⟨"CORE_INCONSISTENT_GEOMETRY", Severity.Error,
          "Geometric inconsistency detected: {details}.",
          "Inconsistência geométrica detectada: {details}."⟩
  | _ => ⟨"", Severity.Trace, "", ""⟩

/-- `detail::get_core_info` of `CoreErrors.h`: bounds-checked lookup,
`_Min = 1` (InvalidArgument) and `_Max = 5` (InconsistentGeometry). -/
def get_core_info (e : Nat) : CoreErrorInfo :=
  if 1 ≤ e ∧ e ≤ 5 then get_core_error_info_data e
  else ⟨"", Severity.Trace, "", ""⟩

/-- The `ErrorTraits<CoreErr>` specialization of `CoreErrors.h`
(domain id 0x0001, name "Core"). -/
def CoreErrTraits : ErrorTraits Nat where
  domain_id := 1
  domain_name := "Core"
  default_severity := fun e => (get_core_info e).severity
  key := fun e => (get_core_info e).key
  enUS := fun e => (get_core_info e).enUS
  ptBR := fun e => (get_core_info e).ptBR
  val := fun e => e % 65536

/-- Character-list test: does `t` stand at the head of `s`?
(The comparison `out.compare(pos, …)` implicit in `std::string::find`.) -/
def leadsWith : List Char → List Char → Bool
  | [], _ => true
  | _ :: _, [] => false
  | a :: as, b :: bs => a == b && leadsWith as bs

/-- One `while ((pos = out.find(token, pos)) != npos)` loop of
`detail::log_error`, scanning left to right: on a match, emit `v` and
resume after the matched token (the cursor is advanced past the inserted
value, so the insertion is never re-scanned); otherwise move one character
forward.  `fuel` bounds the number of steps; each step consumes at least
one character of `s`, so `fuel = s.length` is always sufficient. -/
def replaceAllFuel (token v : List Char) : Nat → List Char → List Char
  | 0, s => s
  | fuel + 1, s =>
    if token ≠ [] ∧ leadsWith token s then
      v ++ replaceAllFuel token v fuel (s.drop token.length)
    else
      match s with
      | [] => []
      | c :: rest => c :: replaceAllFuel token v fuel rest

/-- Replace every occurrence of `token` in `s` by `v`, left to right,
without re-scanning insertions (the inner loop of `detail::log_error`). -/
def replaceAll (token v s : List Char) : List Char :=
  replaceAllFuel token v s.length s

/-- The message-formatting step of `detail::log_error`: starting from the
template, for each pair `(k, v)` in order replace every occurrence of the
token `"\x7b" ++ k ++ "\x7d"` by `v`. -/
def render (tmpl : String) (kv : List (String × String)) : String :=
  String.mk (kv.foldl
    (fun out p => replaceAll (("\x7b" ++ p.1 ++ "\x7d").data) p.2.data out)
    tmpl.data)

/-- Prepend a character to the first segment of a segmentation (spec side). -/
def consHead (c : Char) : List (List Char) → List (List Char)
  | [] => [[c]]
  | x :: xs => (c :: x) :: xs

/-- Greedy left-to-right segmentation of `s` at occurrences of `token`.
Modelled from the spec: "for each `(key, value)` pair, replace every
occurrence of the literal token `{key}` with `value`, advancing the scan
cursor past the *inserted* value (not re-scanning it)" — the segmentation
depends only on the original string and the token, never on the inserted
value. -/
def splitTokFuel (token : List Char) : Nat → List Char → List (List Char)
  | 0, s => [s]
  | fuel + 1, s =>
    if token ≠ [] ∧ leadsWith token s then
      [] :: splitTokFuel token fuel (s.drop token.length)
    else
      match s with
      | [] => [[]]
      | c :: rest => consHead c (splitTokFuel token fuel rest)

/-- Greedy segmentation of `s` at occurrences of `token` (spec side). -/
def splitTok (token s : List Char) : List (List Char) :=
  splitTokFuel token s.length s

/-- Join segments, inserting `v` between consecutive segments (spec side). -/
def joinSeg (v : List Char) : List (List Char) → List Char
  | [] => []
  | [x] => x
  | x :: y :: rest => x ++ v ++ joinSeg v (y :: rest)

/-- Does `token` occur (as a contiguous run) anywhere in `s`? (spec side). -/
def containsTok (token : List Char) : List Char → Bool
  | [] => leadsWith token []
  | c :: rest => leadsWith token (c :: rest) || containsTok token rest

/-- `ThreadLocalBufferLogger::log` of `ErrorManager.h`: append if the
calling thread's buffer holds fewer than `thread_buffer_cap` records,
otherwise silently drop the new record. -/
def ThreadLocalBufferLogger.log (cfg : ErrorConfig) (buf : List ErrorRecord)
    (record : ErrorRecord) : List ErrorRecord :=
  if buf.length < cfg.thread_buffer_cap then buf ++ [record] else buf

/-- `ThreadLocalBufferLogger::flush` of `ErrorManager.h`: swap the thread's
buffer with an empty one and return the old contents
(`(drained records, new buffer)`). -/
def ThreadLocalBufferLogger.flush (buf : List ErrorRecord) :
    List ErrorRecord × List ErrorRecord :=
  (buf, [])

/-- `ErrorManager::log` of `ErrorManager.h`.  The configuration and its
logger (the default `ThreadLocalBufferLogger`) are present throughout this
development, so the facade forwards unconditionally. -/
def ErrorManager.log (cfg : ErrorConfig) (buf : List ErrorRecord)
    (record : ErrorRecord) : List ErrorRecord :=
  ThreadLocalBufferLogger.log cfg buf record

/-- `ErrorManager::flush` of `ErrorManager.h` (same remark as for `log`). -/
def ErrorManager.flush (buf : List ErrorRecord) :
    List ErrorRecord × List ErrorRecord :=
  ThreadLocalBufferLogger.flush buf

/-- Language selection of `detail::log_error`:
`(lang == Language::PtBR) ? ptBR(e) : enUS(e)`. -/
def pick_template {E : Type} (tr : ErrorTraits E) (cfg : ErrorConfig)
    (e : E) : String :=
  if cfg.language = Language.PtBR then tr.ptBR e else tr.enUS e

/-- `detail::log_error` of `Detail.h`: severity filter, language selection,
placeholder substitution, dispatch to `ErrorManager::log`.  Returns the
calling thread's buffer after the call. -/
def log_error {E : Type} (tr : ErrorTraits E) (cfg : ErrorConfig) (e : E)
    (kv : List (String × String)) (buf : List ErrorRecord) :
    List ErrorRecord :=
  let sev := tr.default_severity e
  if sev.toNat < cfg.min_severity.toNat then buf
  else
    ErrorManager.log cfg buf
      ⟨code tr e, sev, render (pick_template tr cfg e) kv⟩

/-- Fallback message of the `FVG_ERROR` macro. -/
def fallback_message : String :=
  "Erro grave lançado (verifique log/severidade)"

/-- The `FVG_ERROR` macro of `Macros.h`: log via `detail::log_error`; then,
if the policy is `Throw` and the error's default severity is at least
`Error`, drain the thread's buffer via `ErrorManager::flush` and throw an
`FVGException` carrying the last drained record (or a minimal fallback
record if the drained buffer is empty).  The result is
`(thrown exception payload, thread buffer afterwards)`; `none` means no
exception unwinds. -/
def fvgError {E : Type} (tr : ErrorTraits E) (cfg : ErrorConfig) (e : E)
    (kv : List (String × String)) (buf : List ErrorRecord) :
    Option ErrorRecord × List ErrorRecord :=
  let buf1 := log_error tr cfg e kv buf
  if cfg.policy = Policy.Throw then
    let sev := tr.default_severity e
    if Severity.Error.toNat ≤ sev.toNat then
      let flushed := ErrorManager.flush buf1
      match flushed.1.getLast? with
      | some r => (some r, flushed.2)
      | none => (some ⟨code tr e, sev, fallback_message⟩, flushed.2)
    else (none, buf1)
  else (none, buf1)

/-- `Status` of `Status.h`: success flag plus an error record (default
record when OK). -/
structure Status where
  ok : Bool
  record : ErrorRecord
deriving DecidableEq

/-- The default `Status` constructor: success. -/
def Status.OK : Status :=
  ⟨true, ⟨0, Severity.Error, ""⟩⟩

/-- The `Status(ErrorRecord)` constructor: failure carrying `record`. -/
def Status.fail (record : ErrorRecord) : Status :=
  ⟨false, record⟩

/-- `StatusOr<T>` of `Status.h`: an optional value plus a status.  `value?`
is the `std::optional<T>` member. -/
structure StatusOr (T : Type) where
  value? : Option T
  status : Status

/-- The `StatusOr(T)` success constructor: stores the value, status OK. -/
def StatusOr.fromValue {T : Type} (t : T) : StatusOr T :=
  ⟨some t, Status.OK⟩

/-- The `StatusOr(Status)` failure constructor: empty optional, stores the
status. -/
def StatusOr.fromStatus {T : Type} (s : Status) : StatusOr T :=
  ⟨none, s⟩

/-- `StatusOr::ok()`: forwards to the stored status. -/
def StatusOr.ok {T : Type} (x : StatusOr T) : Bool :=
  x.status.ok

/-- `StatusOr::value()`: `std::optional::value()` throws
`std::bad_optional_access` when empty; modelled as the stored `Option`
(`none` = the "no value present" failure, never a default-initialized
value). -/
def StatusOr.value {T : Type} (x : StatusOr T) : Option T :=
  x.value?

/-- The state of the `Config` singleton of `ErrorConfig.h`: an append-only
heap of immutable `ErrorConfig` objects (each `std::make_shared` allocation)
together with the index of the current one (the `ptr_` member).  Snapshots
handed to callers are heap addresses. -/
structure ConfigStore where
  heap : List ErrorConfig
  cur : Nat

/-- Default-constructed `ErrorConfig` (`ErrorConfig.h` field initializers):
PtBR, Throw, Warning, capacity 256, the default logger. -/
def Config.defaultConfig : ErrorConfig :=
  ⟨Language.PtBR, Policy.Throw, Severity.Warning, 256, 0⟩

/-- The singleton's initial state (`Config()` constructor). -/
def Config.init : ConfigStore :=
  ⟨[Config.defaultConfig], 0⟩

/-- `Config::get`: return a snapshot (the address of the current
configuration object). -/
def Config.get (st : ConfigStore) : Nat :=
  st.cur

/-- `Config::set`: allocate a fresh immutable configuration object and
swap the current pointer to it.  No existing heap cell is written. -/
def Config.set (st : ConfigStore) (cfg : ErrorConfig) : ConfigStore :=
  ⟨st.heap ++ [cfg], st.heap.length⟩

/-- Dereference a snapshot: read the configuration object it points at. -/
def Config.read (st : ConfigStore) (snap : Nat) : Option ErrorConfig :=
  st.heap.get? snap

/-! ### Helper lemmas -/

theorem joinSeg_consHead (v : List Char) (c : Char) (L : List (List Char)) :
    joinSeg v (consHead c L) = c :: joinSeg v L := by
  match L with
  | [] => simp [consHead, joinSeg]
  | [x] => simp [consHead, joinSeg]
  | x :: y :: rest => simp [consHead, joinSeg]

theorem consHead_ne_nil (c : Char) (L : List (List Char)) :
    consHead c L ≠ [] := by
  cases L <;> simp [consHead]

theorem splitTokFuel_ne_nil (token : List Char) (fuel : Nat) (s : List Char) :
    splitTokFuel token fuel s ≠ [] := by
  match fuel, s with
  | 0, s => simp [splitTokFuel]
  | fuel + 1, s =>
    unfold splitTokFuel
    by_cases h : token ≠ [] ∧ leadsWith token s
    · simp [h]
    · rw [if_neg h]
      cases s with
      | nil => simp
      | cons c rest => exact consHead_ne_nil c _

theorem joinSeg_nil_cons (v : List Char) (L : List (List Char)) (hL : L ≠ []) :
    joinSeg v ([] :: L) = v ++ joinSeg v L := by
  cases L with
  | nil => exact absurd rfl hL
  | cons x xs => cases xs <;> simp [joinSeg]

theorem replaceAllFuel_eq_joinSeg (token v : List Char) (ht : token ≠ []) :
    ∀ (fuel : Nat) (s : List Char), s.length ≤ fuel →
      replaceAllFuel token v fuel s = joinSeg v (splitTokFuel token fuel s) := by
  intro fuel
  induction fuel with
  | zero =>
    intro s hs
    have hnil : s = [] := List.eq_nil_of_length_eq_zero (Nat.le_zero.mp hs)
    subst hnil
    simp [replaceAllFuel, splitTokFuel, joinSeg]
  | succ fuel ih =>
    intro s hs
    unfold replaceAllFuel splitTokFuel
    by_cases h : token ≠ [] ∧ leadsWith token s
    · rw [if_pos h, if_pos h]
      have htl : 0 < token.length := List.length_pos.mpr ht
      have hdrop : (s.drop token.length).length ≤ fuel := by
        simp only [List.length_drop]; omega
      rw [joinSeg_nil_cons v _ (splitTokFuel_ne_nil token fuel _), ih _ hdrop]
    · rw [if_neg h, if_neg h]
      cases s with
      | nil => simp [joinSeg]
      | cons c rest =>
        have hrest : rest.length ≤ fuel := by
          simp only [List.length_cons] at hs; omega
        rw [joinSeg_consHead]
        show c :: replaceAllFuel token v fuel rest
          = c :: joinSeg v (splitTokFuel token fuel rest)
        rw [ih _ hrest]

theorem replaceAllFuel_not_contains (token v : List Char) :
    ∀ (fuel : Nat) (s : List Char), containsTok token s = false →
      replaceAllFuel token v fuel s = s := by
  intro fuel
  induction fuel with
  | zero => intro s _; rfl
  | succ fuel ih =>
    intro s hc
    unfold replaceAllFuel
    cases s with
    | nil =>
      have hlw : leadsWith token [] = false := by
        simpa [containsTok] using hc
      rw [if_neg (by simp [hlw])]
    | cons c rest =>
      have hboth := hc
      simp only [containsTok, Bool.or_eq_false_iff] at hboth
      rw [if_neg (by simp [hboth.1])]
      show c :: replaceAllFuel token v fuel rest = c :: rest
      rw [ih rest hboth.2]

theorem foldl_tlb_log (cfg : ErrorConfig) :
    ∀ (rs buf : List ErrorRecord),
      List.foldl (ThreadLocalBufferLogger.log cfg) buf rs
        = buf ++ List.take (cfg.thread_buffer_cap - buf.length) rs := by
  intro rs
  induction rs with
  | nil => intro buf; simp
  | cons r rs ih =>
    intro buf
    simp only [List.foldl_cons]
    by_cases h : buf.length < cfg.thread_buffer_cap
    · have hlog : ThreadLocalBufferLogger.log cfg buf r = buf ++ [r] := by
        unfold ThreadLocalBufferLogger.log; rw [if_pos h]
      rw [hlog, ih (buf ++ [r])]
      have hstep : cfg.thread_buffer_cap - buf.length
          = (cfg.thread_buffer_cap - (buf ++ [r]).length) + 1 := by
        simp only [List.length_append, List.length_cons, List.length_nil]
        omega
      rw [hstep]
      simp [List.take_succ_cons]
    · have hlog : ThreadLocalBufferLogger.log cfg buf r = buf := by
        unfold ThreadLocalBufferLogger.log; rw [if_neg h]
      rw [hlog, ih buf]
      have hz : cfg.thread_buffer_cap - buf.length = 0 := by omega
      simp [hz]

theorem log_error_skip {E : Type} (tr : ErrorTraits E) (cfg : ErrorConfig)
    (e : E) (kv : List (String × String)) (buf : List ErrorRecord)
    (h : (tr.default_severity e).toNat < cfg.min_severity.toNat) :
    log_error tr cfg e kv buf = buf := by
  simp only [log_error]
  rw [if_pos h]

theorem log_error_append {E : Type} (tr : ErrorTraits E) (cfg : ErrorConfig)
    (e : E) (kv : List (String × String)) (buf : List ErrorRecord)
    (h : ¬ (tr.default_severity e).toNat < cfg.min_severity.toNat)
    (hcap : buf.length < cfg.thread_buffer_cap) :
    log_error tr cfg e kv buf
      = buf ++ [⟨code tr e, tr.default_severity e,
          render (pick_template tr cfg e) kv⟩] := by
  simp only [log_error, ErrorManager.log, ThreadLocalBufferLogger.log]
  rw [if_neg h, if_pos hcap]

theorem fvgError_gate {E : Type} (tr : ErrorTraits E) (cfg : ErrorConfig)
    (e : E) (kv : List (String × String)) (buf : List ErrorRecord)
    (hp : cfg.policy = Policy.Throw)
    (hs : Severity.Error.toNat ≤ (tr.default_severity e).toNat) :
    fvgError tr cfg e kv buf
      = (match (log_error tr cfg e kv buf).getLast? with
          | some r => (some r, ([] : List ErrorRecord))
          | none => (some ⟨code tr e, tr.default_severity e, fallback_message⟩,
                      ([] : List ErrorRecord))) := by
  simp only [fvgError, ErrorManager.flush, ThreadLocalBufferLogger.flush]
  rw [if_pos hp, if_pos hs]

theorem fvgError_no_gate {E : Type} (tr : ErrorTraits E) (cfg : ErrorConfig)
    (e : E) (kv : List (String × String)) (buf : List ErrorRecord)
    (h : ¬ (cfg.policy = Policy.Throw
            ∧ Severity.Error.toNat ≤ (tr.default_severity e).toNat)) :
    fvgError tr cfg e kv buf = (none, log_error tr cfg e kv buf) := by
  simp only [fvgError]
  by_cases hp : cfg.policy = Policy.Throw
  · rw [if_pos hp, if_neg (fun hs => h ⟨hp, hs⟩)]
  · rw [if_neg hp]

theorem make_code_of_lt (d v : Nat) (hd : d < 65536) (hv : v < 65536) :
    make_code d v = Nat.lor (Nat.shiftLeft d 16) v := by
  unfold make_code
  rw [Nat.mod_eq_of_lt hd, Nat.mod_eq_of_lt hv]

theorem make_code_lt (d v : Nat) : make_code d v < 4294967296 := by
  unfold make_code
  have h1 : Nat.shiftLeft (d % 65536) 16 < 2 ^ 32 := by
    show (d % 65536) <<< 16 < 2 ^ 32
    rw [Nat.shiftLeft_eq]
    have hm : d % 65536 < 65536 := Nat.mod_lt _ (by norm_num)
    have e1 : (2 : Nat) ^ 16 = 65536 := by norm_num
    have e2 : (2 : Nat) ^ 32 = 4294967296 := by norm_num
    rw [e1, e2]
    omega
  have h2 : v % 65536 < 2 ^ 32 := by
    have hm : v % 65536 < 65536 := Nat.mod_lt _ (by norm_num)
    have e2 : (2 : Nat) ^ 32 = 4294967296 := by norm_num
    omega
  have h3 : Nat.bitwise or (Nat.shiftLeft (d % 65536) 16) (v % 65536) < 2 ^ 32 :=
    Nat.bitwise_lt_two_pow h1 h2
  have e2 : (2 : Nat) ^ 32 = 4294967296 := by norm_num
  rw [e2] at h3
  exact h3

/-! ### Claim theorems -/

/-- C3: the rendering step of `detail::log_error` replaces, for each pair in
order, every occurrence of the literal token of the key by the value, with
the scan cursor advanced past the inserted value: the result is exactly the
value joined between the segments of a greedy left-to-right segmentation of
the original string, a segmentation that does not depend on the inserted
value (so values containing token-like text are never re-substituted and
replacement terminates); pairs whose key does not occur in the scanned
string leave it unchanged; placeholders with no matching pair stay verbatim;
the template "Invalid argument: \x7bname\x7d." with the pair
(name, "x") renders "Invalid argument: x.". -/
theorem log_error_substitution :
    (∀ (k : String) (v s : List Char),
        replaceAll (("\x7b" ++ k ++ "\x7d").data) v s
          = joinSeg v (splitTok (("\x7b" ++ k ++ "\x7d").data) s))
    ∧ (∀ (token v s : List Char), containsTok token s = false →
        replaceAll token v s = s)
    ∧ render "Invalid argument: {name}." [("name", "x")]
        = "Invalid argument: x."
    ∧ render "{name}{name}" [("name", "x{name}")] = "x{name}x{name}" := by
  refine ⟨?_, ?_, by decide, by decide⟩
  · intro k v s
    have htok : ("\x7b" ++ k ++ "\x7d").data ≠ [] := by
      intro h
      have := congrArg List.length h
      simp [String.data_append] at this
    exact replaceAllFuel_eq_joinSeg _ v htok s.length s (le_refl _)
  · intro token v s hc
    exact replaceAllFuel_not_contains token v s.length s hc

/-- C3 witness: the general no-occurrence clause applied at a concrete
token, value and string. -/
theorem log_error_substitution_witness :
    replaceAll ("zz".data) ("q".data) ("abc".data) = "abc".data :=
  log_error_substitution.2.1 ("zz".data) ("q".data) ("abc".data) (by decide)

/-- C4: on one thread, logging a sequence of records through
`ThreadLocalBufferLogger::log` starting from an empty (freshly flushed)
buffer retains exactly the first `min(n, capacity)` records in logging
order; a record arriving when the buffer already holds `capacity` entries
is silently dropped (drop-newest); with capacity 2, logging 3 records
retains exactly the first 2 in order. -/
theorem tlb_log_capacity (cfg : ErrorConfig) (rs : List ErrorRecord) :
    List.foldl (ThreadLocalBufferLogger.log cfg) [] rs
      = List.take cfg.thread_buffer_cap rs
    ∧ (List.foldl (ThreadLocalBufferLogger.log cfg) [] rs).length
      = min rs.length cfg.thread_buffer_cap
    ∧ (∀ (buf : List ErrorRecord) (r : ErrorRecord),
        ¬ buf.length < cfg.thread_buffer_cap →
        ThreadLocalBufferLogger.log cfg buf r = buf)
    ∧ ∀ r1 r2 r3 : ErrorRecord,
        List.foldl
          (ThreadLocalBufferLogger.log
            ⟨Language.PtBR, Policy.Throw, Severity.Warning, 2, 0⟩)
          [] [r1, r2, r3] = [r1, r2] := by
  refine ⟨?_, ?_, ?_, ?_⟩
  · rw [foldl_tlb_log cfg rs []]
    simp
  · rw [foldl_tlb_log cfg rs []]
    simp [List.length_take, Nat.min_comm]
  · intro buf r h
    simp only [ThreadLocalBufferLogger.log]
    rw [if_neg h]
  · intro r1 r2 r3
    rw [foldl_tlb_log]
    simp [List.take_succ_cons]

/-- C4 witness: the drop-newest clause applied at capacity 0 with an empty
buffer. -/
theorem tlb_log_capacity_witness :
    ThreadLocalBufferLogger.log
      ⟨Language.PtBR, Policy.Throw, Severity.Warning, 0, 0⟩ []
      ⟨1, Severity.Error, "m"⟩ = [] :=
  (tlb_log_capacity ⟨Language.PtBR, Policy.Throw, Severity.Warning, 0, 0⟩
      []).2.2.1 [] ⟨1, Severity.Error, "m"⟩ (by decide)

/-- C5: `ThreadLocalBufferLogger::flush` returns exactly the records
accepted into the thread's buffer since the previous flush, in order, and
leaves the buffer empty; a second segment of logs after a flush is returned
by the next flush only (exactly-once delivery, no duplication, no loss
beyond the capacity drop); an immediately repeated flush returns the empty
sequence. -/
theorem tlb_flush_exactly_once (cfg : ErrorConfig)
    (rs1 rs2 : List ErrorRecord) :
    (ThreadLocalBufferLogger.flush
        (List.foldl (ThreadLocalBufferLogger.log cfg) [] rs1)).1
      = List.take cfg.thread_buffer_cap rs1
    ∧ (ThreadLocalBufferLogger.flush
        (List.foldl (ThreadLocalBufferLogger.log cfg) [] rs1)).2 = []
    ∧ (ThreadLocalBufferLogger.flush
        (List.foldl (ThreadLocalBufferLogger.log cfg)
          (ThreadLocalBufferLogger.flush
            (List.foldl (ThreadLocalBufferLogger.log cfg) [] rs1)).2 rs2)).1
      = List.take cfg.thread_buffer_cap rs2
    ∧ ∀ buf : List ErrorRecord,
        (ThreadLocalBufferLogger.flush buf).1 = buf
        ∧ (ThreadLocalBufferLogger.flush buf).2 = []
        ∧ (ThreadLocalBufferLogger.flush
            ((ThreadLocalBufferLogger.flush buf).2)).1 = [] := by
  refine ⟨?_, rfl, ?_, ?_⟩
  · simp only [ThreadLocalBufferLogger.flush]
    rw [foldl_tlb_log cfg rs1 []]
    simp
  · simp only [ThreadLocalBufferLogger.flush]
    rw [foldl_tlb_log cfg rs2 []]
    simp
  · intro buf
    exact ⟨rfl, rfl, rfl⟩

/-- C1 (amended): `FVG_ERROR` throws if and only if the configured policy is
`Throw` and the error's default severity is at least `Error`; with policy
`Throw` and severity `Warning` no exception is thrown and — provided the
severity passes the `min_severity` filter and the thread's buffer is below
capacity — the record is still logged; with policy `Status` no exception is
ever thrown. -/
theorem fvg_error_raise {E : Type} (tr : ErrorTraits E) (cfg : ErrorConfig)
    (e : E) (kv : List (String × String)) (buf : List ErrorRecord) :
    ((fvgError tr cfg e kv buf).1.isSome = true ↔
      (cfg.policy = Policy.Throw
        ∧ Severity.Error.toNat ≤ (tr.default_severity e).toNat))
    ∧ (cfg.policy = Policy.Throw → tr.default_severity e = Severity.Warning →
        cfg.min_severity.toNat ≤ Severity.Warning.toNat →
        buf.length < cfg.thread_buffer_cap →
        (fvgError tr cfg e kv buf).1 = none
        ∧ (fvgError tr cfg e kv buf).2
          = buf ++ [⟨code tr e, Severity.Warning,
              render (pick_template tr cfg e) kv⟩])
    ∧ (cfg.policy = Policy.Status → (fvgError tr cfg e kv buf).1 = none) := by
  refine ⟨⟨?_, ?_⟩, ?_, ?_⟩
  · intro hsome
    by_contra h
    rw [fvgError_no_gate tr cfg e kv buf h] at hsome
    simp at hsome
  · rintro ⟨hp, hs⟩
    rw [fvgError_gate tr cfg e kv buf hp hs]
    rcases hlast : (log_error tr cfg e kv buf).getLast? with _ | r <;>
      simp [hlast]
  · intro hp hw hmin hcap
    have hng : ¬ (cfg.policy = Policy.Throw
        ∧ Severity.Error.toNat ≤ (tr.default_severity e).toNat) := by
      rintro ⟨_, hs⟩
      rw [hw] at hs
      simp [Severity.toNat] at hs
    rw [fvgError_no_gate tr cfg e kv buf hng]
    have hnot : ¬ (tr.default_severity e).toNat < cfg.min_severity.toNat := by
      rw [hw]
      simp only [Severity.toNat] at hmin ⊢
      omega
    rw [log_error_append tr cfg e kv buf hnot hcap]
    exact ⟨rfl, by rw [hw]⟩
  · intro hst
    have hng : ¬ (cfg.policy = Policy.Throw
        ∧ Severity.Error.toNat ≤ (tr.default_severity e).toNat) := by
      rintro ⟨hp, _⟩
      rw [hst] at hp
      cases hp
    rw [fvgError_no_gate tr cfg e kv buf hng]

/-- C1 witness: the Warning clause at `CoreErr::NotImplemented` (severity
Warning) under the default Throw/Warning configuration, and the Status
clause under a Status configuration. -/
theorem fvg_error_raise_witness :
    ((fvgError CoreErrTraits
        ⟨Language.EnUS, Policy.Throw, Severity.Warning, 256, 0⟩ 3 [] []).1
      = none
    ∧ (fvgError CoreErrTraits
        ⟨Language.EnUS, Policy.Throw, Severity.Warning, 256, 0⟩ 3 [] []).2
      = [] ++ [⟨code CoreErrTraits 3, Severity.Warning,
          render (pick_template CoreErrTraits
            ⟨Language.EnUS, Policy.Throw, Severity.Warning, 256, 0⟩ 3) []⟩])
    ∧ (fvgError CoreErrTraits
        ⟨Language.EnUS, Policy.Status, Severity.Warning, 256, 0⟩ 1 [] []).1
      = none :=
  ⟨(fvg_error_raise CoreErrTraits
      ⟨Language.EnUS, Policy.Throw, Severity.Warning, 256, 0⟩ 3 [] []).2.1
      rfl (by decide) (by decide) (by decide),
   (fvg_error_raise CoreErrTraits
      ⟨Language.EnUS, Policy.Status, Severity.Warning, 256, 0⟩ 1 [] []).2.2
      rfl⟩

/-- C1 counterexample: with policy Throw, severity Warning ≥ min_severity
Warning, but the thread buffer already at capacity (1 of 1), the record is
NOT logged — the buffer is unchanged — refuting the unconditional "record
is still logged (given severity >= min_severity)". -/
theorem fvg_error_raise_cex :
    (fvgError CoreErrTraits
        ⟨Language.EnUS, Policy.Throw, Severity.Warning, 1, 0⟩ 3 []
        [⟨7, Severity.Warning, "r0"⟩])
      = (none, [⟨7, Severity.Warning, "r0"⟩])
    ∧ CoreErrTraits.default_severity 3 = Severity.Warning
    ∧ Severity.Warning.toNat ≤ (CoreErrTraits.default_severity 3).toNat := by
  decide

/-- C2 (amended): under policy Throw with severity ≥ Error, if the severity
passes the `min_severity` filter and the thread's buffer is below capacity,
the thrown exception carries exactly the freshly rendered, localized
message and the composed code `code(e)`; if the drained buffer is empty, a
fallback record carrying `code(e)` and the computed severity is thrown;
and an exception is always thrown (signaling is never skipped) — though
when the fresh record was filtered out or dropped, the exception carries
the last stale record of the drained buffer instead. -/
theorem fvg_error_payload {E : Type} (tr : ErrorTraits E) (cfg : ErrorConfig)
    (e : E) (kv : List (String × String)) (buf : List ErrorRecord)
    (hp : cfg.policy = Policy.Throw)
    (hs : Severity.Error.toNat ≤ (tr.default_severity e).toNat) :
    (cfg.min_severity.toNat ≤ (tr.default_severity e).toNat →
      buf.length < cfg.thread_buffer_cap →
      (fvgError tr cfg e kv buf).1
        = some ⟨code tr e, tr.default_severity e,
            render (pick_template tr cfg e) kv⟩)
    ∧ (log_error tr cfg e kv buf = [] →
      (fvgError tr cfg e kv buf).1
        = some ⟨code tr e, tr.default_severity e, fallback_message⟩)
    ∧ (fvgError tr cfg e kv buf).1.isSome = true := by
  refine ⟨?_, ?_, ?_⟩
  · intro hmin hcap
    have hnot : ¬ (tr.default_severity e).toNat < cfg.min_severity.toNat := by
      omega
    rw [fvgError_gate tr cfg e kv buf hp hs,
        log_error_append tr cfg e kv buf hnot hcap,
        List.getLast?_concat]
  · intro hempty
    rw [fvgError_gate tr cfg e kv buf hp hs, hempty]
    rfl
  · rw [fvgError_gate tr cfg e kv buf hp hs]
    rcases hlast : (log_error tr cfg e kv buf).getLast? with _ | r <;>
      simp [hlast]

/-- C2 witness: the fresh-record clause at `CoreErr::InvalidArgument` from
an empty buffer under the default configuration. -/
theorem fvg_error_payload_witness :
    (fvgError CoreErrTraits
        ⟨Language.EnUS, Policy.Throw, Severity.Warning, 256, 0⟩ 1
        [("name", "x")] []).1
      = some ⟨code CoreErrTraits 1, CoreErrTraits.default_severity 1,
          render (pick_template CoreErrTraits
            ⟨Language.EnUS, Policy.Throw, Severity.Warning, 256, 0⟩ 1)
            [("name", "x")]⟩ :=
  (fvg_error_payload CoreErrTraits
      ⟨Language.EnUS, Policy.Throw, Severity.Warning, 256, 0⟩ 1
      [("name", "x")] [] rfl (by decide)).1 (by decide) (by decide)

/-- C2 counterexample: policy Throw, `CoreErr::InvalidArgument`
(severity Error), but `min_severity = Fatal`: the fresh record is filtered
out, the drain returns the stale buffered record, and the thrown exception
carries code 999 and message "old" — not the rendered message and not
`code(e) = 65537` — refuting "regardless of … the configured
min_severity". -/
theorem fvg_error_payload_cex :
    (fvgError CoreErrTraits
        ⟨Language.EnUS, Policy.Throw, Severity.Fatal, 256, 0⟩ 1
        [("name", "x")] [⟨999, Severity.Error, "old"⟩]).1
      = some ⟨999, Severity.Error, "old"⟩
    ∧ code CoreErrTraits 1 = 65537
    ∧ render (pick_template CoreErrTraits
        ⟨Language.EnUS, Policy.Throw, Severity.Fatal, 256, 0⟩ 1)
        [("name", "x")] = "Invalid argument: x."
    ∧ (999 : Nat) ≠ 65537 ∧ "old" ≠ "Invalid argument: x." := by
  decide

/-- C10: if `FVG_ERROR` reaches the throwing branch (policy Throw, severity
≥ Error) and the thread's buffer is non-empty after the logging step, the
whole buffer is drained before the throw: the thread's buffer afterwards is
empty, the exception carries exactly the last drained record, and a
subsequent flush returns nothing (all other drained records are
discarded). -/
theorem fvg_error_drains {E : Type} (tr : ErrorTraits E) (cfg : ErrorConfig)
    (e : E) (kv : List (String × String)) (buf : List ErrorRecord)
    (hp : cfg.policy = Policy.Throw)
    (hs : Severity.Error.toNat ≤ (tr.default_severity e).toNat)
    (hne : log_error tr cfg e kv buf ≠ []) :
    (fvgError tr cfg e kv buf).2 = []
    ∧ (fvgError tr cfg e kv buf).1 = (log_error tr cfg e kv buf).getLast?
    ∧ (ErrorManager.flush (fvgError tr cfg e kv buf).2).1 = [] := by
  rw [fvgError_gate tr cfg e kv buf hp hs]
  rcases hlast : (log_error tr cfg e kv buf).getLast? with _ | r
  · exact absurd (List.getLast?_eq_none_iff.mp hlast) hne
  · exact ⟨rfl, rfl, rfl⟩

/-- C10 witness: at `CoreErr::InvalidArgument` with two stale records
buffered, the throw drains all three and carries only the last. -/
theorem fvg_error_drains_witness :
    (fvgError CoreErrTraits
        ⟨Language.EnUS, Policy.Throw, Severity.Warning, 256, 0⟩ 1
        [("name", "x")]
        [⟨7, Severity.Warning, "a"⟩, ⟨8, Severity.Warning, "b"⟩]).2 = []
    ∧ (fvgError CoreErrTraits
        ⟨Language.EnUS, Policy.Throw, Severity.Warning, 256, 0⟩ 1
        [("name", "x")]
        [⟨7, Severity.Warning, "a"⟩, ⟨8, Severity.Warning, "b"⟩]).1
      = (log_error CoreErrTraits
          ⟨Language.EnUS, Policy.Throw, Severity.Warning, 256, 0⟩ 1
          [("name", "x")]
          [⟨7, Severity.Warning, "a"⟩, ⟨8, Severity.Warning, "b"⟩]).getLast?
    ∧ (ErrorManager.flush (fvgError CoreErrTraits
        ⟨Language.EnUS, Policy.Throw, Severity.Warning, 256, 0⟩ 1
        [("name", "x")]
        [⟨7, Severity.Warning, "a"⟩, ⟨8, Severity.Warning, "b"⟩]).2).1
      = [] :=
  fvg_error_drains CoreErrTraits
    ⟨Language.EnUS, Policy.Throw, Severity.Warning, 256, 0⟩ 1
    [("name", "x")]
    [⟨7, Severity.Warning, "a"⟩, ⟨8, Severity.Warning, "b"⟩]
    rfl (by decide) (by decide)

/-- C6: `Config::set` constructs a new immutable configuration object and
only replaces the current pointer: every snapshot address valid before the
`set` still dereferences to the same configuration contents afterwards
(language, policy, min_severity, thread_buffer_cap, logger unchanged),
while the new current snapshot reads the freshly installed
configuration. -/
theorem config_snapshot_stable (st : ConfigStore) (cfg : ErrorConfig)
    (snap : Nat) (hsnap : snap < st.heap.length) :
    Config.read (Config.set st cfg) snap = Config.read st snap
    ∧ Config.read (Config.set st cfg) (Config.get (Config.set st cfg))
      = some cfg := by
  constructor
  · simp only [Config.read, Config.set]
    exact List.get?_append hsnap
  · simp only [Config.read, Config.set, Config.get]
    exact List.get?_concat_length st.heap cfg

/-- C6 witness: a snapshot of the initial configuration survives a
concurrent `set` unchanged. -/
theorem config_snapshot_stable_witness :
    Config.read
        (Config.set Config.init
          ⟨Language.EnUS, Policy.Status, Severity.Error, 8, 0⟩) 0
      = Config.read Config.init 0
    ∧ Config.read
        (Config.set Config.init
          ⟨Language.EnUS, Policy.Status, Severity.Error, 8, 0⟩)
        (Config.get (Config.set Config.init
          ⟨Language.EnUS, Policy.Status, Severity.Error, 8, 0⟩))
      = some ⟨Language.EnUS, Policy.Status, Severity.Error, 8, 0⟩ :=
  config_snapshot_stable Config.init
    ⟨Language.EnUS, Policy.Status, Severity.Error, 8, 0⟩ 0 (by decide)

/-- C7: for every 16-bit value outside the declared `CoreErr` range
`[_Min, _Max] = [1, 5]`, the metadata lookup `detail::get_core_info`
returns severity Trace and empty strings for the key and both message
templates (the lookup is a total function — no undefined behavior). -/
theorem core_info_out_of_range (v : Nat) (hv : v < 65536)
    (hout : ¬ (1 ≤ v ∧ v ≤ 5)) :
    get_core_info v = ⟨"", Severity.Trace, "", ""⟩
    ∧ CoreErrTraits.default_severity v = Severity.Trace
    ∧ CoreErrTraits.key v = ""
    ∧ CoreErrTraits.enUS v = ""
    ∧ CoreErrTraits.ptBR v = "" := by
  have h : get_core_info v = ⟨"", Severity.Trace, "", ""⟩ := by
    simp only [get_core_info]
    rw [if_neg hout]
  exact ⟨h, by simp [CoreErrTraits, h], by simp [CoreErrTraits, h],
    by simp [CoreErrTraits, h], by simp [CoreErrTraits, h]⟩

/-- C7 witness: the out-of-range lookup at the concrete value 9999. -/
theorem core_info_out_of_range_witness :
    get_core_info 9999 = ⟨"", Severity.Trace, "", ""⟩
    ∧ CoreErrTraits.default_severity 9999 = Severity.Trace
    ∧ CoreErrTraits.key 9999 = ""
    ∧ CoreErrTraits.enUS 9999 = ""
    ∧ CoreErrTraits.ptBR 9999 = "" :=
  core_info_out_of_range 9999 (by decide) (by decide)

/-- C8: constructing `StatusOr<T>` from a value yields `ok() = true` and
`value()` returns that same value; constructing it from a failure `Status`
yields `ok() = false` and `value()` fails with the "no value present"
condition (the stored optional is empty — no default-initialized value is
returned). -/
theorem statusor_roundtrip :
    (∀ (T : Type) (t : T),
        (StatusOr.fromValue t).ok = true
        ∧ (StatusOr.fromValue t).value = some t)
    ∧ ∀ (T : Type) (s : Status), s.ok = false →
        (@StatusOr.fromStatus T s).ok = false
        ∧ (@StatusOr.fromStatus T s).value = none := by
  constructor
  · intro T t
    exact ⟨rfl, rfl⟩
  · intro T s h
    exact ⟨h, rfl⟩

/-- C8 witness: the failure clause at a concrete failing status over
`T = Nat`. -/
theorem statusor_roundtrip_witness :
    (@StatusOr.fromStatus Nat (Status.fail ⟨1, Severity.Error, "m"⟩)).ok
      = false
    ∧ (@StatusOr.fromStatus Nat
        (Status.fail ⟨1, Severity.Error, "m"⟩)).value = none :=
  statusor_roundtrip.2 Nat (Status.fail ⟨1, Severity.Error, "m"⟩) rfl

/-- C9: for all 16-bit domain ids and values, `make_code d v` equals
`(d << 16) | v` and fits in 32 bits; the documented example
`make_code 0xAAAA 0x00FF = 0xAAAA00FF` holds; and `code(e)` is exactly
`make_code(domain_id, numeric value of e)` for every conforming traits
specialization (`make_code` is a total pure function by construction). -/
theorem make_code_spec :
    (∀ d v : Nat, d < 65536 → v < 65536 →
        make_code d v = Nat.lor (Nat.shiftLeft d 16) v
        ∧ make_code d v < 4294967296)
    ∧ make_code 43690 255 = 2863268095
    ∧ ∀ (E : Type) (tr : ErrorTraits E) (e : E),
        code tr e = make_code tr.domain_id (tr.val e) :=
  ⟨fun d v hd hv => ⟨make_code_of_lt d v hd hv, make_code_lt d v⟩,
   by decide,
   fun _ _ _ => rfl⟩

/-- C9 witness: the general clause applied at the documented example
`d = 0xAAAA`, `v = 0x00FF`. -/
theorem make_code_spec_witness :
    make_code 43690 255 = Nat.lor (Nat.shiftLeft 43690 16) 255
    ∧ make_code 43690 255 < 4294967296 :=
  make_code_spec.1 43690 255 (by decide) (by decide)

end FVG
